import Mathlib

/-!
# Verification of the Smart Resume Analyzer recommendation engine

Shallow embedding of `src/recommender.py` (class `Recommender`): the static
catalogs, skill weighting, industry matching, and the job/course
recommendation pipeline.  Python float values are modelled as exact rationals
(every IEEE double is a rational, and no claim here hinges on rounding of
float arithmetic).  The external TF-IDF/cosine primitive from scikit-learn is
not code of this repository; it is modelled from the spec by quantifying over
any similarity function satisfying the contract of the Similarity Ranker.
-/

namespace Recommender

/-- Character-wise lowercasing (Python `str.lower()` on ASCII text). -/
def lower (s : String) : String :=
  String.mk (s.data.map Char.toLower)

/-- Modelled from the spec: the tokenizer used by the external TF-IDF
vectorizer (scikit-learn default `token_pattern`): lowercase the text and
keep maximal runs of word characters of length at least 2 (empty pieces
between separators are dropped by the length filter). -/
def tokenize (s : String) : List String :=
  (((lower s).data.splitOnP (fun c => !(c.isAlphanum || c == '_'))).map
    String.mk).filter (fun t => 2 ≤ t.length)

/-- `self.skill_weights` from `Recommender.__init__`. -/
def skill_weights : List (String × ℚ) :=
  [("Python", 1.2), ("Java", 1.1), ("SQL", 1.1),
   ("Machine Learning", 1.3), ("AWS", 1.2),
   ("Docker", 1.1), ("Kubernetes", 1.2)]

/-- `self.skill_weights.get(skill, 1.0)`. -/
def skillWeight (s : String) : ℚ :=
  match skill_weights.find? (fun kv => kv.1 == s) with
  | some kv => kv.2
  | none => 1.0

/-- `self.industry_clusters` from `Recommender.__init__` (Python dicts keep
insertion order, so this is an ordered association list). -/
def industry_clusters : List (String × List String) :=
  [("web_development", ["Python", "Java", "SQL", "Git"]),
   ("data_science", ["Python", "R", "Machine Learning", "Statistics"]),
   ("cloud_devops", ["Docker", "Kubernetes", "AWS", "Linux"])]

/-- A catalog job role (`self.job_roles` entry). -/
structure JobRole where
  title : String
  required_skills : List String
  description : String
deriving DecidableEq, Repr

/-- `self.job_roles` from `Recommender.__init__`. -/
def job_roles : List JobRole :=
  [{ title := "Software Engineer",
     required_skills := ["Python", "Java", "SQL", "Git", "Agile"],
     description := "Develop and maintain software applications" },
   { title := "Data Scientist",
     required_skills := ["Python", "R", "Machine Learning", "SQL", "Statistics"],
     description := "Analyze complex data sets to drive business decisions" },
   { title := "DevOps Engineer",
     required_skills := ["Docker", "Kubernetes", "CI/CD", "AWS", "Linux"],
     description := "Implement and maintain deployment infrastructure" }]

/-- A catalog course (`self.courses` entry). -/
structure Course where
  title : String
  skills : List String
  level : String
deriving DecidableEq, Repr

/-- `self.courses` from `Recommender.__init__`. -/
def courses : List Course :=
  [{ title := "Python Programming Masterclass",
     skills := ["Python", "Data Structures", "Algorithms"],
     level := "Intermediate" },
   { title := "Machine Learning Fundamentals",
     skills := ["Python", "Machine Learning", "Statistics"],
     level := "Advanced" },
   { title := "Cloud Computing Essentials",
     skills := ["AWS", "Cloud Architecture", "DevOps"],
     level := "Beginner" }]

/-- `_apply_skill_weights`: repeat each skill `int(weight * 10)` times
(`int` truncates; the weights are positive, so this is the floor) and join
with single spaces. -/
def apply_skill_weights (skills : List String) : String :=
  String.intercalate " "
    (List.flatten (skills.map (fun skill =>
      List.replicate (Int.toNat ⌊skillWeight skill * 10⌋) skill)))

/-- One industry score from `_get_industry_match`:
`len(set(skills) & set(cluster_skills)) / len(cluster_skills)`. -/
def clusterScore (skills : List String) (cluster_skills : List String) : ℚ :=
  (((cluster_skills.dedup.filter (fun c => c ∈ skills)).length : ℚ)) /
    ((cluster_skills.length : ℚ))

/-- `_get_industry_match`: score every cluster, then
`max(industry_scores.items(), key=lambda x: x[1])[0]` (Python `max` keeps the
first maximal item), or `None` when there are no scores. -/
def get_industry_match (skills : List String) : Option String :=
  let industry_scores := industry_clusters.map (fun ic => (ic.1, clusterScore skills ic.2))
  match industry_scores with
  | [] => none
  | s :: ss =>
      some ((ss.foldl (fun best cur => if best.2 < cur.2 then cur else best) s).1)

/-- The job corpus built in `_recommend_jobs`:
`[' '.join(job['required_skills']) for job in self.job_roles]`. -/
def job_texts : List String :=
  job_roles.map (fun j => String.intercalate " " j.required_skills)

/-- The course corpus built in `_recommend_courses`. -/
def course_texts : List String :=
  courses.map (fun c => String.intercalate " " c.skills)

/-- `self.industry_clusters.get(industry_match, [])` (also covers the
`industry_match is None` case, where the lookup misses). -/
def clusterSkillsOf (industry_match : Option String) : List String :=
  match industry_match with
  | none => []
  | some name =>
      match industry_clusters.find? (fun ic => ic.1 == name) with
      | some ic => ic.2
      | none => []

/-- A job recommendation record (`{**job, 'match_score': ..,
'industry_alignment': ..}`). -/
structure JobRec where
  title : String
  required_skills : List String
  description : String
  match_score : ℚ
  industry_alignment : Option String
deriving DecidableEq, Repr

/-- A course recommendation record (`{**course, 'missing_skills': ..,
'relevance_score': .., 'skill_importance': .., 'experience_match': ..}`). -/
structure CourseRec where
  title : String
  skills : List String
  level : String
  missing_skills : List String
  relevance_score : ℚ
  skill_importance : ℚ
  experience_match : Bool
deriving DecidableEq, Repr

/-- The type of the external similarity primitive: the corpus texts and the
query text to one similarity per corpus entry (in corpus order). -/
abbrev Ranker := List String → String → List ℚ

/-- Modelled from the spec: the contract of the Similarity Ranker (§4.4),
realized in the source by the external scikit-learn `TfidfVectorizer` and
`cosine_similarity` (not code of this repository): one score per corpus
entry, every score in `[0, 1]`, and score 0 for a corpus entry sharing no
token with the query (in particular against an empty query). -/
def ValidRanker (rank : Ranker) : Prop :=
  (∀ corpus query, (rank corpus query).length = corpus.length) ∧
  (∀ corpus query, ∀ s ∈ rank corpus query, 0 ≤ s ∧ s ≤ 1) ∧
  (∀ corpus query i (hc : i < corpus.length) (hr : i < (rank corpus query).length),
    (∀ t ∈ tokenize (corpus.get ⟨i, hc⟩), t ∉ tokenize query) →
    (rank corpus query).get ⟨i, hr⟩ = 0)

/-- `_recommend_jobs`: keep jobs with positive base similarity, add a 0.2
industry bonus when the job's required skills meet the matched cluster, clamp
at 1.0, sort by score descending (stable), return the top 3.  Python's
stable `list.sort(key=.., reverse=True)` is embedded as the stable insertion
sort: a stable sort's output is uniquely determined by the comparator. -/
def recommend_jobs (rank : Ranker) (weighted_skills : String)
    (industry_match : Option String) : List JobRec :=
  let base_similarities := rank job_texts weighted_skills
  let job_recommendations := (job_roles.zip base_similarities).filterMap (fun js =>
    if 0 < js.2 then
      let industry_bonus : ℚ :=
        if js.1.required_skills.any (fun sk => decide (sk ∈ clusterSkillsOf industry_match))
        then 0.2 else 0
      some { title := js.1.title,
             required_skills := js.1.required_skills,
             description := js.1.description,
             match_score := min (js.2 + industry_bonus) 1,
             industry_alignment := if 0 < industry_bonus then industry_match else none }
    else none)
  (job_recommendations.insertionSort
    (fun a b => b.match_score ≤ a.match_score)).take 3

/-- The ordinal experience mapping of `_recommend_courses`:
`{'beginner': 0, 'intermediate': 1, 'advanced': 2}.get(level.lower(), 1)`. -/
def experienceOrd (level : String) : ℕ :=
  if lower level = "beginner" then 0
  else if lower level = "intermediate" then 1
  else if lower level = "advanced" then 2
  else 1

/-- `_recommend_courses`: adjust similarity by experience-level distance,
keep courses with a non-empty missing-skill list, score the gap importance,
sort by `0.7 * relevance + 0.3 * importance` descending (stable, embedded as
the stable insertion sort), top 3. -/
def recommend_courses (rank : Ranker) (weighted_skills : String)
    (user_skills : List String) (experience_level : String) : List CourseRec :=
  let cosine_similarities := rank course_texts weighted_skills
  let user_level := experienceOrd experience_level
  let course_recommendations := (courses.zip cosine_similarities).filterMap (fun cs =>
    let course_level := experienceOrd cs.1.level
    let level_diff : ℕ := max course_level user_level - min course_level user_level
    let adjusted_similarity := cs.2 * (1 - 0.2 * (level_diff : ℚ))
    let missing_skills := cs.1.skills.filter (fun sk => decide (sk ∉ user_skills))
    if missing_skills = [] then none
    else
      some { title := cs.1.title,
             skills := cs.1.skills,
             level := cs.1.level,
             missing_skills := missing_skills,
             relevance_score := adjusted_similarity,
             skill_importance :=
               (missing_skills.map skillWeight).sum / (missing_skills.length : ℚ),
             experience_match := cs.1.level == experience_level })
  (course_recommendations.insertionSort
    (fun a b => b.relevance_score * 0.7 + b.skill_importance * 0.3 ≤
                a.relevance_score * 0.7 + a.skill_importance * 0.3)).take 3

/-- The per-request input of `get_recommendations` (`analyzed_data`): absent
dictionary keys are `none`. -/
structure AnalyzedData where
  skills : List String
  experience_level : Option String
  industry_preference : Option String

/-- The combined result of `get_recommendations`. -/
structure RecommendationResult where
  job_recommendations : List JobRec
  course_recommendations : List CourseRec
  matched_industry : Option String

/-- `get_recommendations`: weight the skills, compute the industry match
unless a truthy (non-`None`, non-empty) preference was supplied, then run
both recommenders.  `if not industry_preference` in Python treats both
`None` and `""` as absent. -/
def get_recommendations (rank : Ranker) (analyzed_data : AnalyzedData) :
    RecommendationResult :=
  let skills := analyzed_data.skills
  let experience_level := analyzed_data.experience_level.getD "intermediate"
  let industry_preference := analyzed_data.industry_preference
  let weighted_skills := apply_skill_weights skills
  let industry_match :=
    if industry_preference.getD "" = "" then get_industry_match skills
    else industry_preference
  { job_recommendations := recommend_jobs rank weighted_skills industry_match,
    course_recommendations :=
      recommend_courses rank weighted_skills skills experience_level,
    matched_industry := industry_match }

/-- A concrete similarity function satisfying the Similarity Ranker
contract, used to instantiate the universally quantified theorems on
concrete inputs: 0 on token-disjoint pairs, 1/2 otherwise. -/
def overlapRank : Ranker := fun corpus query =>
  corpus.map (fun doc =>
    if ∀ t ∈ tokenize doc, t ∉ tokenize query then 0 else 1/2)

/-- The Industry Matcher as the spec words it (§4.3): the first industry in
the declared catalog order whose score equals the maximum score. -/
def spec_first_argmax (skills : List String) : Option String :=
  match industry_clusters with
  | [] => none
  | ic :: ics =>
      let best := (ics.map (fun x => clusterScore skills x.2)).foldl max
        (clusterScore skills ic.2)
      ((ic :: ics).find? (fun x => decide (clusterScore skills x.2 = best))).map
        (fun x => x.1)

theorem valid_overlapRank : ValidRanker overlapRank := by
  refine ⟨fun c q => by simp [overlapRank], fun c q s hs => ?_, fun c q i hc hr hd => ?_⟩
  · obtain ⟨d, _, rfl⟩ := List.mem_map.mp hs
    split
    · norm_num
    · norm_num
  · have hmap : (overlapRank c q).get ⟨i, hr⟩ =
        if ∀ t ∈ tokenize (c.get ⟨i, hc⟩), t ∉ tokenize q then (0 : ℚ) else 1/2 := by
      simp [overlapRank, List.get_eq_getElem, List.getElem_map]
    rw [hmap, if_pos hd]

theorem recommend_jobs_length_le (rank : Ranker) (w : String) (ind : Option String) :
    (recommend_jobs rank w ind).length ≤ 3 := by
  unfold recommend_jobs
  exact (List.length_take_le 3 _).trans (le_refl 3)

theorem recommend_courses_length_le (rank : Ranker) (w : String)
    (user : List String) (lvl : String) :
    (recommend_courses rank w user lvl).length ≤ 3 := by
  unfold recommend_courses
  exact (List.length_take_le 3 _).trans (le_refl 3)

theorem skillWeight_cases (sk : String) :
    skillWeight sk = 1 ∨ skillWeight sk = 11/10 ∨ skillWeight sk = 6/5 ∨
      skillWeight sk = 13/10 := by
  unfold skillWeight
  cases hf : skill_weights.find? (fun kv => kv.1 == sk) with
  | none => left; norm_num
  | some kv =>
    have hm := List.mem_of_find?_eq_some hf
    simp only [skill_weights, List.mem_cons, List.not_mem_nil, or_false] at hm
    rcases hm with rfl | rfl | rfl | rfl | rfl | rfl | rfl <;> norm_num

unseal Rat.mul Rat.inv Rat.add Rat.sub Rat.ofScientific in
theorem skillWeight_floor_eq_round (sk : String) :
    Int.toNat ⌊skillWeight sk * 10⌋ = Int.toNat (round (skillWeight sk * 10)) := by
  rcases skillWeight_cases sk with h | h | h | h <;> rw [h] <;> decide

/-- C6: for every skill list, `_apply_skill_weights` produces the space-join
of each skill repeated `round(w * 10)` times, `w` being the skill's weight
table entry; a skill absent from the table (weight default 1.0) is repeated
exactly 10 times. -/
theorem apply_skill_weights_round_spec (skills : List String) :
    apply_skill_weights skills =
      String.intercalate " " (List.flatten (skills.map (fun sk =>
        List.replicate (Int.toNat (round (skillWeight sk * 10))) sk))) ∧
    (∀ sk, skill_weights.find? (fun kv => kv.1 == sk) = none →
      Int.toNat (round (skillWeight sk * 10)) = 10) := by
  constructor
  · have hmap : skills.map (fun sk =>
          List.replicate (Int.toNat ⌊skillWeight sk * 10⌋) sk) =
        skills.map (fun sk =>
          List.replicate (Int.toNat (round (skillWeight sk * 10))) sk) :=
      List.map_congr_left (fun sk _ => by rw [skillWeight_floor_eq_round sk])
    unfold apply_skill_weights
    rw [hmap]
  · intro sk hnone
    have h1 : skillWeight sk = 1 := by
      unfold skillWeight
      rw [hnone]
      norm_num
    rw [h1]
    norm_num [round_eq]
    rfl

/-- Witness for C6 at the concrete unweighted skill `"Welding"`. -/
theorem apply_skill_weights_round_spec_witness :
    Int.toNat (round (skillWeight "Welding" * 10)) = 10 :=
  (apply_skill_weights_round_spec []).2 "Welding" (by decide)

theorem find_first_max_three (g : List String → ℚ) (na nb nc : String)
    (la lb lc : List String) :
    some ((if (if g la < g lb then (nb, g lb) else (na, g la)).2 < g lc
           then (nc, g lc)
           else if g la < g lb then (nb, g lb) else (na, g la)).1) =
    Option.map (fun x => x.1)
      (List.find? (fun x => decide (g x.2 = g la ⊔ g lb ⊔ g lc))
        [(na, la), (nb, lb), (nc, lc)]) := by
  rcases lt_or_le (g la) (g lb) with hab | hab
  · rcases lt_or_le (g lb) (g lc) with hbc | hbc
    · have hm : g la ⊔ g lb ⊔ g lc = g lc := by
        rw [max_eq_right hab.le, max_eq_right hbc.le]
      have h1 : g la ≠ g lc := ne_of_lt (hab.trans hbc)
      have h2 : g lb ≠ g lc := ne_of_lt hbc
      simp [hab, hbc, hm, h1, h2, List.find?]
    · have hm : g la ⊔ g lb ⊔ g lc = g lb := by
        rw [max_eq_right hab.le, max_eq_left hbc]
      have h1 : g la ≠ g lb := ne_of_lt hab
      simp [hab, not_lt.mpr hbc, hm, h1, List.find?]
  · rcases lt_or_le (g la) (g lc) with hac | hac
    · have hm : g la ⊔ g lb ⊔ g lc = g lc := by
        rw [max_eq_left hab, max_eq_right hac.le]
      have h1 : g la ≠ g lc := ne_of_lt hac
      have h2 : g lb ≠ g lc := ne_of_lt (lt_of_le_of_lt hab hac)
      simp [not_lt.mpr hab, hac, hm, h1, h2, List.find?]
    · have hm : g la ⊔ g lb ⊔ g lc = g la := by
        rw [max_eq_left hab, max_eq_left hac]
      simp [not_lt.mpr hab, not_lt.mpr hac, hm, List.find?]

/-- C9: the Industry Matcher is a pure function (two calls on equal inputs
agree), and it equals the spec's first-argmax rule: the chosen industry is
the first one, in the declared catalog order, whose score attains the
maximum score (so ties are broken by catalog order). -/
theorem get_industry_match_deterministic (S T : List String) (h : S = T) :
    get_industry_match S = get_industry_match T ∧
    get_industry_match S = spec_first_argmax S := by
  refine ⟨by rw [h], ?_⟩
  unfold get_industry_match spec_first_argmax
  simp only [industry_clusters, List.map_cons, List.map_nil, List.foldl_cons,
    List.foldl_nil]
  exact find_first_max_three (clusterScore S) "web_development" "data_science"
    "cloud_devops" _ _ _

/-- Witness for C9 at the concrete skill list `["Python"]`. -/
theorem get_industry_match_deterministic_witness :
    get_industry_match ["Python"] = get_industry_match ["Python"] ∧
    get_industry_match ["Python"] = spec_first_argmax ["Python"] :=
  get_industry_match_deterministic ["Python"] ["Python"] rfl

unseal Rat.mul Rat.inv Rat.add Rat.sub Rat.ofScientific in
/-- Counterexample to C4: `["Agile"]` scores 0 against every industry
cluster, yet `_get_industry_match` returns the first industry
(`"web_development"`), not an absent result; and downstream a 0.2 industry
bonus is applied: the Software Engineer job (whose required skills meet the
`web_development` cluster) is recommended with its similarity plus 0.2 and a
non-null `industry_alignment`. -/
theorem industry_match_all_zero_counterexample :
    (∀ p ∈ industry_clusters, clusterScore ["Agile"] p.2 = 0) ∧
    get_industry_match ["Agile"] = some "web_development" ∧
    (get_recommendations overlapRank
        { skills := ["Agile"], experience_level := none,
          industry_preference := none }).job_recommendations.map
      (fun e => (e.title, e.match_score, e.industry_alignment)) =
      [("Software Engineer", 1/2 + 2/10, some "web_development")] := by
  refine ⟨by decide, by decide, by decide⟩

/-- C4 (amended): when every industry cluster scores 0, the matcher does
not return an absent result: it returns the first industry in the declared
catalog order, `"web_development"` (an absent result occurs only for an
empty cluster catalog, which the actual catalog is not). -/
theorem industry_match_all_zero_first (skills : List String)
    (h : ∀ p ∈ industry_clusters, clusterScore skills p.2 = 0) :
    get_industry_match skills = some "web_development" := by
  have ha := h ("web_development", ["Python", "Java", "SQL", "Git"]) (by simp [industry_clusters])
  have hb := h ("data_science", ["Python", "R", "Machine Learning", "Statistics"])
    (by simp [industry_clusters])
  have hc := h ("cloud_devops", ["Docker", "Kubernetes", "AWS", "Linux"])
    (by simp [industry_clusters])
  unfold get_industry_match
  simp only [industry_clusters, List.map_cons, List.map_nil, List.foldl_cons,
    List.foldl_nil]
  simp [ha, hb, hc]

unseal Rat.mul Rat.inv Rat.add Rat.sub Rat.ofScientific in
/-- Witness for the amended C4 at the concrete skill list `["Agile"]`. -/
theorem industry_match_all_zero_first_witness :
    get_industry_match ["Agile"] = some "web_development" :=
  industry_match_all_zero_first ["Agile"] (by decide)

unseal Rat.mul Rat.inv Rat.add Rat.sub Rat.ofScientific in
/-- Counterexample to C5: an explicitly supplied empty-string
`industry_preference` is not used verbatim: Python's `if not
industry_preference` treats `""` as absent, so the computed industry match
is returned instead. -/
theorem industry_preference_empty_string_counterexample :
    (get_recommendations overlapRank
        { skills := ["Python"], experience_level := none,
          industry_preference := some "" }).matched_industry =
      some "web_development" ∧
    (get_recommendations overlapRank
        { skills := ["Python"], experience_level := none,
          industry_preference := some "" }).matched_industry ≠ some "" := by
  refine ⟨by decide, by decide⟩

/-- C5 (amended): a supplied non-empty `industry_preference` bypasses the
computed industry match and is returned verbatim, even when it would not
have won the cluster-overlap scoring; only an empty-string preference is
treated as absent. -/
theorem industry_preference_override (rank : Ranker) (d : AnalyzedData)
    (p : String) (hp : d.industry_preference = some p) (hne : p ≠ "") :
    (get_recommendations rank d).matched_industry = some p := by
  unfold get_recommendations
  simp only [hp, Option.getD_some]
  rw [if_neg hne]

/-- Witness for the amended C5: a preference that would not have won the
cluster scoring (the skills all point at `web_development`) is still
returned verbatim. -/
theorem industry_preference_override_witness :
    (get_recommendations overlapRank
        { skills := ["Python", "Java", "SQL", "Git"], experience_level := none,
          industry_preference := some "cloud_devops" }).matched_industry =
      some "cloud_devops" :=
  industry_preference_override overlapRank
    { skills := ["Python", "Java", "SQL", "Git"], experience_level := none,
      industry_preference := some "cloud_devops" } "cloud_devops" rfl (by decide)

theorem recommend_jobs_mem (rank : Ranker) (w : String) (ind : Option String)
    (e : JobRec) (he : e ∈ recommend_jobs rank w ind) :
    ∃ js ∈ job_roles.zip (rank job_texts w), 0 < js.2 ∧
      e.title = js.1.title ∧
      ∃ b : ℚ, (b = 0.2 ∨ b = 0) ∧ e.match_score = min (js.2 + b) 1 := by
  simp only [recommend_jobs] at he
  obtain ⟨js, hjs, hfj⟩ :=
    List.mem_filterMap.mp ((List.mem_insertionSort _).mp (List.mem_of_mem_take he))
  by_cases hpos : 0 < js.2
  · rw [if_pos hpos] at hfj
    obtain rfl := (Option.some.inj hfj)
    refine ⟨js, hjs, hpos, rfl, ?_⟩
    by_cases hb : js.1.required_skills.any
        (fun sk => decide (sk ∈ clusterSkillsOf ind))
    · exact ⟨0.2, Or.inl rfl, by simp [hb]⟩
    · exact ⟨0, Or.inr rfl, by simp [hb]⟩
  · rw [if_neg hpos] at hfj
    exact absurd hfj (by simp)

theorem recommend_courses_mem (rank : Ranker) (w : String) (user : List String)
    (lvl : String) (e : CourseRec) (he : e ∈ recommend_courses rank w user lvl) :
    ∃ cs ∈ courses.zip (rank course_texts w),
      e.title = cs.1.title ∧
      e.missing_skills = cs.1.skills.filter (fun sk => decide (sk ∉ user)) ∧
      e.missing_skills ≠ [] ∧
      e.relevance_score = cs.2 * (1 - 0.2 *
        ((max (experienceOrd cs.1.level) (experienceOrd lvl) -
          min (experienceOrd cs.1.level) (experienceOrd lvl) : ℕ) : ℚ)) ∧
      e.experience_match = (cs.1.level == lvl) := by
  simp only [recommend_courses] at he
  obtain ⟨cs, hcs, hfc⟩ :=
    List.mem_filterMap.mp ((List.mem_insertionSort _).mp (List.mem_of_mem_take he))
  by_cases hmiss : cs.1.skills.filter (fun sk => decide (sk ∉ user)) = []
  · rw [if_pos hmiss] at hfc
    exact absurd hfc (by simp)
  · rw [if_neg hmiss] at hfc
    obtain rfl := (Option.some.inj hfc)
    exact ⟨cs, hcs, rfl, rfl, hmiss, rfl, rfl⟩

/-- C1: for every candidate profile and every similarity function satisfying
the Similarity Ranker contract, the job recommendation list has length at
most 3 with every `match_score` in `[0, 1]`, and the course recommendation
list has length at most 3. -/
theorem recommendation_lists_bounded (rank : Ranker) (hR : ValidRanker rank)
    (d : AnalyzedData) :
    (get_recommendations rank d).job_recommendations.length ≤ 3 ∧
    (∀ e ∈ (get_recommendations rank d).job_recommendations,
      0 ≤ e.match_score ∧ e.match_score ≤ 1) ∧
    (get_recommendations rank d).course_recommendations.length ≤ 3 := by
  refine ⟨recommend_jobs_length_le .., ?_, recommend_courses_length_le ..⟩
  intro e he
  obtain ⟨js, hjs, hpos, -, b, hb, hscore⟩ :=
    recommend_jobs_mem rank (apply_skill_weights d.skills) _ e he
  have hs : js.2 ∈ rank job_texts (apply_skill_weights d.skills) :=
    (List.of_mem_zip hjs).2
  have hbounds := hR.2.1 _ _ _ hs
  have hbnn : (0 : ℚ) ≤ b := by rcases hb with rfl | rfl <;> norm_num
  constructor
  · rw [hscore]
    exact le_min (by positivity) zero_le_one
  · rw [hscore]
    exact min_le_right _ _

/-- C2: for every candidate profile, every recommended course has a
non-empty `missing_skills` list: a course whose every skill the candidate
already has is never recommended. -/
theorem course_missing_skills_nonempty (rank : Ranker) (d : AnalyzedData) :
    ∀ e ∈ (get_recommendations rank d).course_recommendations,
      e.missing_skills ≠ [] := by
  intro e he
  obtain ⟨cs, -, -, -, hne, -⟩ :=
    recommend_courses_mem rank (apply_skill_weights d.skills) d.skills
      (d.experience_level.getD "intermediate") e he
  exact hne

theorem take_sort_filterMap_nil {α β : Type} (r : β → β → Prop) [DecidableRel r]
    (f : α → Option β) (l : List α) (h : ∀ a ∈ l, f a = none) (n : ℕ) :
    (List.insertionSort r (l.filterMap f)).take n = [] := by
  rw [List.filterMap_eq_nil_iff.mpr h]
  simp

theorem recommend_jobs_eq_nil (rank : Ranker) (w : String) (ind : Option String)
    (h : ∀ s ∈ rank job_texts w, ¬ 0 < s) : recommend_jobs rank w ind = [] := by
  simp only [recommend_jobs]
  apply take_sort_filterMap_nil
  intro a ha
  exact if_neg (h a.2 (List.of_mem_zip ha).2)

theorem rank_all_zero (rank : Ranker) (hR : ValidRanker rank) (corpus : List String)
    (q : String) (hd : ∀ d ∈ corpus, ∀ t ∈ tokenize d, t ∉ tokenize q) :
    ∀ s ∈ rank corpus q, s = 0 := by
  intro s hs
  obtain ⟨⟨i, hi⟩, hget⟩ := List.mem_iff_get.mp hs
  have hc : i < corpus.length := by
    have := hR.1 corpus q
    omega
  rw [← hget]
  exact hR.2.2 corpus q i hc hi (hd _ (corpus.get_mem i hc))

unseal Rat.mul Rat.inv Rat.add Rat.sub Rat.ofScientific in
/-- C3: for every similarity function satisfying the ranker contract, a job
whose base similarity is 0 never appears in the recommendations (the
`similarity > 0` filter is strict), and for `skills = ["Welding"]` (token
overlap 0 with every catalog job) the job recommendation list is empty. -/
theorem zero_similarity_job_excluded (rank : Ranker) (hR : ValidRanker rank) :
    (∀ (w : String) (ind : Option String),
      ∀ p ∈ job_roles.zip (rank job_texts w), p.2 = 0 →
        ∀ e ∈ recommend_jobs rank w ind, e.title ≠ p.1.title) ∧
    (get_recommendations rank
        { skills := ["Welding"], experience_level := none,
          industry_preference := none }).job_recommendations = [] := by
  constructor
  · intro w ind p hp hp0 e he hte
    obtain ⟨js, hjs, hpos, htitle, -⟩ := recommend_jobs_mem rank w ind e he
    have hlen : (rank job_texts w).length = 3 := by rw [hR.1]; rfl
    obtain ⟨s0, s1, s2, hs⟩ := List.length_eq_three.mp hlen
    rw [hs] at hjs hp
    rw [htitle] at hte
    simp only [job_roles, List.zip_cons_cons, List.zip_nil_right, List.mem_cons,
      List.not_mem_nil, or_false] at hjs hp
    rcases hjs with rfl | rfl | rfl <;> rcases hp with hp | hp | hp <;> simp_all
  · show recommend_jobs rank (apply_skill_weights ["Welding"]) _ = []
    apply recommend_jobs_eq_nil
    intro s hs
    have h0 : s = 0 := rank_all_zero rank hR job_texts _ (by decide) s hs
    rw [h0]
    exact lt_irrefl 0

/-- Witness for C3: the Welding profile yields an empty job list under the
concrete `overlapRank` similarity function. -/
theorem zero_similarity_job_excluded_witness :
    (get_recommendations overlapRank
        { skills := ["Welding"], experience_level := none,
          industry_preference := none }).job_recommendations = [] :=
  (zero_similarity_job_excluded overlapRank valid_overlapRank).2

unseal Rat.mul Rat.inv Rat.add Rat.sub Rat.ofScientific in
/-- C8: the empty skill list weights to the empty string, every similarity
against either catalog is 0 under the ranker contract, and the call
completes totally with an empty job list and at most 3 course entries. -/
theorem empty_skills_degrade (rank : Ranker) (hR : ValidRanker rank)
    (lvl : Option String) :
    apply_skill_weights [] = "" ∧
    (∀ s ∈ rank job_texts (apply_skill_weights []), s = 0) ∧
    (∀ s ∈ rank course_texts (apply_skill_weights []), s = 0) ∧
    (get_recommendations rank
        { skills := [], experience_level := lvl,
          industry_preference := none }).job_recommendations = [] ∧
    (get_recommendations rank
        { skills := [], experience_level := lvl,
          industry_preference := none }).course_recommendations.length ≤ 3 := by
  have hq : tokenize (apply_skill_weights []) = [] := by decide
  have hj : ∀ s ∈ rank job_texts (apply_skill_weights []), s = 0 := by
    refine rank_all_zero rank hR _ _ ?_
    intro d _ t _
    rw [hq]
    exact List.not_mem_nil t
  have hc : ∀ s ∈ rank course_texts (apply_skill_weights []), s = 0 := by
    refine rank_all_zero rank hR _ _ ?_
    intro d _ t _
    rw [hq]
    exact List.not_mem_nil t
  refine ⟨by decide, hj, hc, ?_, recommend_courses_length_le ..⟩
  show recommend_jobs rank (apply_skill_weights []) _ = []
  apply recommend_jobs_eq_nil
  intro s hs
  rw [hj s hs]
  exact lt_irrefl 0

/-- Witness for C8 under the concrete `overlapRank` similarity function. -/
theorem empty_skills_degrade_witness :
    apply_skill_weights [] = "" ∧
    (get_recommendations overlapRank
        { skills := [], experience_level := none,
          industry_preference := none }).job_recommendations = [] ∧
    (get_recommendations overlapRank
        { skills := [], experience_level := none,
          industry_preference := none }).course_recommendations.length ≤ 3 :=
  ⟨(empty_skills_degrade overlapRank valid_overlapRank none).1,
   (empty_skills_degrade overlapRank valid_overlapRank none).2.2.2.1,
   (empty_skills_degrade overlapRank valid_overlapRank none).2.2.2.2⟩

unseal Rat.mul Rat.inv Rat.add Rat.sub Rat.ofScientific in
/-- C10: the Course Recommender applies no positive-similarity filter: for
the Welding profile every course similarity is 0, yet all 3 courses are
recommended (each with `relevance_score = 0`, so the ranking key rests
entirely on the skill-importance term), each with non-empty
`missing_skills`. -/
theorem courses_no_similarity_filter (rank : Ranker) (hR : ValidRanker rank) :
    (∀ s ∈ rank course_texts (apply_skill_weights ["Welding"]), s = 0) ∧
    (get_recommendations rank
        { skills := ["Welding"], experience_level := none,
          industry_preference := none }).course_recommendations.length = 3 ∧
    (∀ e ∈ (get_recommendations rank
        { skills := ["Welding"], experience_level := none,
          industry_preference := none }).course_recommendations,
      e.relevance_score = 0 ∧ e.missing_skills ≠ []) := by
  have hz : ∀ s ∈ rank course_texts (apply_skill_weights ["Welding"]), s = 0 :=
    rank_all_zero rank hR _ _ (by decide)
  have hlen : (rank course_texts (apply_skill_weights ["Welding"])).length = 3 := by
    rw [hR.1]; rfl
  obtain ⟨s0, s1, s2, hs⟩ := List.length_eq_three.mp hlen
  have h0 : s0 = 0 := hz s0 (by rw [hs]; simp)
  have h1 : s1 = 0 := hz s1 (by rw [hs]; simp)
  have h2 : s2 = 0 := hz s2 (by rw [hs]; simp)
  rw [h0, h1, h2] at hs
  have Heq : recommend_courses rank (apply_skill_weights ["Welding"]) ["Welding"]
        "intermediate" =
      recommend_courses overlapRank (apply_skill_weights ["Welding"]) ["Welding"]
        "intermediate" := by
    simp only [recommend_courses]
    rw [hs, (show overlapRank course_texts (apply_skill_weights ["Welding"]) = [0, 0, 0]
      by decide)]
  refine ⟨hz, ?_, ?_⟩
  · show (recommend_courses rank (apply_skill_weights ["Welding"]) ["Welding"]
      "intermediate").length = 3
    rw [Heq]
    decide
  · intro e he
    have he2 : e ∈ recommend_courses overlapRank (apply_skill_weights ["Welding"])
        ["Welding"] "intermediate" := by
      rw [← Heq]
      exact he
    exact (by decide : ∀ x ∈ recommend_courses overlapRank
        (apply_skill_weights ["Welding"]) ["Welding"] "intermediate",
      x.relevance_score = 0 ∧ x.missing_skills ≠ []) e he2

/-- Witness for C10 under the concrete `overlapRank` similarity function. -/
theorem courses_no_similarity_filter_witness :
    (get_recommendations overlapRank
        { skills := ["Welding"], experience_level := none,
          industry_preference := none }).course_recommendations.length = 3 :=
  (courses_no_similarity_filter overlapRank valid_overlapRank).2.1

unseal Rat.mul Rat.inv Rat.add Rat.sub Rat.ofScientific in
/-- Counterexample to C7: for skills Docker/Kubernetes/AWS at raw level
`"beginner"`, every recommended course — including "Cloud Computing
Essentials" (catalog level `"Beginner"`) — carries `experience_match =
false`, because the flag is the exact case-sensitive comparison
`"Beginner" == "beginner"`. -/
theorem experience_match_case_counterexample :
    ((get_recommendations overlapRank
        { skills := ["Docker", "Kubernetes", "AWS"],
          experience_level := some "beginner",
          industry_preference := none }).course_recommendations.map
      (fun e => (e.title, e.experience_match))) =
    [("Cloud Computing Essentials", false), ("Machine Learning Fundamentals", false),
     ("Python Programming Masterclass", false)] := by
  decide

unseal Rat.mul Rat.inv Rat.add Rat.sub Rat.ofScientific in
/-- C7 (amended): for skills Docker/Kubernetes/AWS at level `"beginner"`,
"Cloud Computing Essentials" is among the recommended courses, but its
`experience_match` flag is `false` (exact, case-sensitive equality between
`"Beginner"` and `"beginner"`), under every similarity function satisfying
the ranker contract. -/
theorem cloud_course_recommended_flag_false (rank : Ranker) (hR : ValidRanker rank) :
    ∃ e ∈ (get_recommendations rank
        { skills := ["Docker", "Kubernetes", "AWS"], experience_level := some "beginner",
          industry_preference := none }).course_recommendations,
      e.title = "Cloud Computing Essentials" ∧ e.experience_match = false := by
  have hlen : (rank course_texts
      (apply_skill_weights ["Docker", "Kubernetes", "AWS"])).length = 3 := by
    rw [hR.1]; rfl
  obtain ⟨s0, s1, s2, hs⟩ := List.length_eq_three.mp hlen
  show ∃ e ∈ recommend_courses rank
      (apply_skill_weights ["Docker", "Kubernetes", "AWS"])
      ["Docker", "Kubernetes", "AWS"] "beginner",
    e.title = "Cloud Computing Essentials" ∧ e.experience_match = false
  simp only [recommend_courses]
  rw [hs]
  rw [List.take_of_length_le (by
    rw [List.length_insertionSort]
    exact le_trans (List.length_filterMap_le _ _) (by simp [courses]))]
  refine ⟨_, (List.mem_insertionSort _).mpr (List.mem_filterMap.mpr
    ⟨({ title := "Cloud Computing Essentials",
        skills := ["AWS", "Cloud Architecture", "DevOps"],
        level := "Beginner" }, s2), ?_, rfl⟩), rfl, rfl⟩
  exact List.mem_cons_of_mem _ (List.mem_cons_of_mem _ (List.mem_cons_self _ _))

/-- Witness for the amended C7 under the concrete `overlapRank` similarity
function. -/
theorem cloud_course_recommended_flag_false_witness :
    ∃ e ∈ (get_recommendations overlapRank
        { skills := ["Docker", "Kubernetes", "AWS"], experience_level := some "beginner",
          industry_preference := none }).course_recommendations,
      e.title = "Cloud Computing Essentials" ∧ e.experience_match = false :=
  cloud_course_recommended_flag_false overlapRank valid_overlapRank

unseal Rat.mul Rat.inv Rat.add Rat.sub Rat.ofScientific in
/-- Witness for C1: a concrete profile whose single job recommendation has
its `match_score` inside `[0, 1]` and both lists within the length bound. -/
theorem recommendation_lists_bounded_witness :
    (get_recommendations overlapRank
        { skills := ["Agile"], experience_level := none,
          industry_preference := none }).job_recommendations.length ≤ 3 ∧
    (0 ≤ ({ title := "Software Engineer",
            required_skills := ["Python", "Java", "SQL", "Git", "Agile"],
            description := "Develop and maintain software applications",
            match_score := 7/10,
            industry_alignment := some "web_development" } : JobRec).match_score ∧
      ({ title := "Software Engineer",
         required_skills := ["Python", "Java", "SQL", "Git", "Agile"],
         description := "Develop and maintain software applications",
         match_score := 7/10,
         industry_alignment := some "web_development" } : JobRec).match_score ≤ 1) ∧
    (get_recommendations overlapRank
        { skills := ["Agile"], experience_level := none,
          industry_preference := none }).course_recommendations.length ≤ 3 :=
  ⟨(recommendation_lists_bounded overlapRank valid_overlapRank
      { skills := ["Agile"], experience_level := none, industry_preference := none }).1,
   (recommendation_lists_bounded overlapRank valid_overlapRank
      { skills := ["Agile"], experience_level := none, industry_preference := none }).2.1
     _ (by decide),
   (recommendation_lists_bounded overlapRank valid_overlapRank
      { skills := ["Agile"], experience_level := none, industry_preference := none }).2.2⟩

unseal Rat.mul Rat.inv Rat.add Rat.sub Rat.ofScientific in
/-- Witness for C2: the concrete top course entry for the Welding profile
has a non-empty `missing_skills` list. -/
theorem course_missing_skills_nonempty_witness :
    ({ title := "Machine Learning Fundamentals",
       skills := ["Python", "Machine Learning", "Statistics"],
       level := "Advanced",
       missing_skills := ["Python", "Machine Learning", "Statistics"],
       relevance_score := 0,
       skill_importance := 7/6,
       experience_match := false } : CourseRec).missing_skills ≠ [] :=
  course_missing_skills_nonempty overlapRank
    { skills := ["Welding"], experience_level := none, industry_preference := none }
    _ (by decide)

end Recommender
